import Mathlib

/-!
Verification of the `ipc_util` library (wire framing codec, listener bind
lifecycle, server accept loop, client send/query functions) against its
natural-language specification, via a shallow embedding of the Rust source.

Streams are modelled as lists of bytes (`Nat`, values below 256 where it
matters; arithmetic is explicit `% 2 ^ 32` where the source casts to `u32`).
The external collaborators (the `bincode` encoding engine, the transport's
bind/accept/connect results and the process-instance counter) are inputs:
encode/decode functions and result oracles supplied to the embedded code.
-/

namespace IpcUtil

/-- Kind of an underlying I/O error, mirroring `std::io::ErrorKind` as far as
the source inspects it (`e.kind() == io::ErrorKind::AddrInUse`). -/
inductive ErrorKind where
  | addrInUse
  | otherKind
  deriving DecidableEq, Repr

/-- An underlying I/O error: a kind plus an opaque payload distinguishing
individual errors. -/
structure IOError where
  kind : ErrorKind
  code : Nat
  deriving DecidableEq, Repr

/-- Errors of `read_serde`, mirroring `IpcStreamReadError` in `errors.rs`:
`ReadError(io::Error)` and `DeserializeError(bincode::Error)` (the bincode
payload is opaque and dropped). -/
inductive IpcStreamReadError where
  | readErr (e : IOError)
  | deserializeErr
  deriving DecidableEq, Repr

/-- Errors of `write_serde`, mirroring `IpcStreamWriteError` in `errors.rs`:
`WriteError(io::Error)` and `SerializeError(bincode::Error)`. -/
inductive IpcStreamWriteError where
  | writeErr (e : IOError)
  | serializeErr
  deriving DecidableEq, Repr

/-- Errors of the server lifecycle, mirroring `IpcServerError` in `errors.rs`. -/
inductive IpcServerError where
  | bindErr (e : IOError)
  | fileErr (e : IOError)
  | alreadyInUseErr
  | threadSpawnErr (e : IOError)
  | threadJoinErr
  deriving DecidableEq, Repr

/-- Errors of the client functions, mirroring `IpcClientError` in `errors.rs`. -/
inductive IpcClientError where
  | connectErr (e : IOError)
  | readErr (e : IpcStreamReadError)
  | writeErr (e : IpcStreamWriteError)
  deriving DecidableEq, Repr

/-- Little-endian byte decomposition of a 32-bit value, as written by
`write_u32::<LittleEndian>`. -/
def u32LE (n : Nat) : List Nat :=
  [n % 256, n / 256 % 256, n / 65536 % 256, n / 16777216 % 256]

/-- Value of four bytes interpreted as a little-endian `u32`, as read by
`read_u32::<LittleEndian>`. -/
def readU32LE (b0 b1 b2 b3 : Nat) : Nat :=
  b0 + 256 * b1 + 65536 * b2 + 16777216 * b3

/-- Embedding of `SocketExt::read_serde` (`src/ext.rs`): read a `u32` length
in little endian (failing with a read error if fewer than 4 bytes remain),
read exactly that many payload bytes (failing with a read error if the stream
ends first, as `read_exact` does), then deserialize the payload with the
decode side of the encoding engine, failing with a deserialize error when it
rejects the bytes.  On success, returns the value and the unconsumed rest of
the stream. -/
def read_serde {α : Type} (de : List Nat → Option α) (stream : List Nat) :
    Except IpcStreamReadError (α × List Nat) :=
  match stream with
  | b0 :: b1 :: b2 :: b3 :: rest =>
    let size := readU32LE b0 b1 b2 b3
    if size ≤ rest.length then
      match de (rest.take size) with
      | some v => .ok (v, rest.drop size)
      | none => .error .deserializeErr
    else
      .error (.readErr ⟨.otherKind, 0⟩)
  | _ => .error (.readErr ⟨.otherKind, 0⟩)

/-- Outcomes of the two underlying stream writes performed by `write_serde`
(first `write_u32`, then `write_all`); each may fail with an I/O error. -/
structure WriteOracle where
  u32Res : Except IOError Unit
  allRes : Except IOError Unit
  deriving Repr

/-- Oracle in which both underlying writes succeed. -/
def okWrites : WriteOracle := ⟨.ok (), .ok ()⟩

/-- Embedding of `SocketExt::write_serde` (`src/ext.rs`): serialize the value
with the encode side of the engine (failing with a serialize error before any
write), write the length as `bytes.len() as u32` in little endian — the `as
u32` cast is `% 2 ^ 32` — then write all the serialized bytes.  Returns the
result together with the bytes actually written to the stream. -/
def write_serde {α : Type} (ser : α → Option (List Nat)) (v : α)
    (o : WriteOracle) : Except IpcStreamWriteError Unit × List Nat :=
  match ser v with
  | none => (.error .serializeErr, [])
  | some bytes =>
    match o.u32Res with
    | .error e => (.error (.writeErr e), [])
    | .ok _ =>
      match o.allRes with
      | .error e => (.error (.writeErr e), u32LE (bytes.length % 2 ^ 32))
      | .ok _ => (.ok (), u32LE (bytes.length % 2 ^ 32) ++ bytes)

/-- Value of the 4-byte length field at the head of a written frame. -/
def frameLenField (out : List Nat) : Nat :=
  match out with
  | b0 :: b1 :: b2 :: b3 :: _ => readU32LE b0 b1 b2 b3
  | _ => 0

theorem readU32LE_u32LE (n : Nat) :
    readU32LE (n % 256) (n / 256 % 256) (n / 65536 % 256) (n / 16777216 % 256)
      = n % 2 ^ 32 := by
  unfold readU32LE
  omega

theorem u32LE_length (n : Nat) : (u32LE n).length = 4 := rfl

/-- Externally observable system actions performed by `start_ipc_listener`
while binding: a bind attempt on the socket, the warning print, and the
`std::fs::remove_file` deletion of the endpoint file. -/
inductive SysAction where
  | bindAttempt
  | warnStale
  | removeEndpointFile
  deriving DecidableEq, Repr

/-- Results of the external collaborators consulted by `start_ipc_listener`:
the outcome of the first `LocalSocketListener::bind`, the value of
`current_process_instance_count()`, the outcome of `std::fs::remove_file`,
the outcome of the retried bind, and the outcome of spawning the server
thread (listeners and join handles are opaque `Nat` identifiers). -/
structure ListenerEnv where
  bindRes1 : Except IOError Nat
  instanceCount : Nat
  removeRes : Except IOError Unit
  bindRes2 : Except IOError Nat
  spawnRes : Except IOError Nat
  deriving Repr

/-- Embedding of the bind portion of `start_ipc_listener` (`src/lib.rs`): try
to bind; on an `AddrInUse` error, return `AlreadyInUseError` when more than
one instance of the current executable is running, otherwise warn, delete the
stale endpoint file (`FileError` on failure) and retry the bind exactly once
(`BindError` on failure); any other bind error is `BindError`.  Returns the
result together with the trace of system actions performed. -/
def bind_listener (env : ListenerEnv) :
    Except IpcServerError Nat × List SysAction :=
  match env.bindRes1 with
  | .ok l => (.ok l, [.bindAttempt])
  | .error e =>
    if e.kind = ErrorKind.addrInUse then
      if env.instanceCount > 1 then
        (.error .alreadyInUseErr, [.bindAttempt])
      else
        match env.removeRes with
        | .error fe =>
          (.error (.fileErr fe), [.bindAttempt, .warnStale, .removeEndpointFile])
        | .ok _ =>
          match env.bindRes2 with
          | .ok l =>
            (.ok l,
              [.bindAttempt, .warnStale, .removeEndpointFile, .bindAttempt])
          | .error e2 =>
            (.error (.bindErr e2),
              [.bindAttempt, .warnStale, .removeEndpointFile, .bindAttempt])
    else
      (.error (.bindErr e), [.bindAttempt])

/-- Embedding of `start_ipc_listener` (`src/lib.rs`): bind (with the stale
endpoint recovery above), then spawn the accept-loop thread, mapping a spawn
failure to `ThreadSpawnError`.  Returns the join-handle identifier and the
trace of system actions. -/
def start_ipc_listener (env : ListenerEnv) :
    Except IpcServerError Nat × List SysAction :=
  match bind_listener env with
  | (.error e, tr) => (.error e, tr)
  | (.ok _, tr) =>
    match env.spawnRes with
    | .error e => (.error (.threadSpawnErr e), tr)
    | .ok h => (.ok h, tr)

/-- Embedding of the accept loop run by the spawned thread
(`listener.incoming().filter_map(error_handler)` with `on_connection` applied
to each surviving stream): processes a list of accept outcomes in order;
each `Ok` connection is handed to `on_connection`; for each `Err` the
`error_handler` closure invokes the optional `on_connection_error` callback
when one is present and returns `None`, and in either case the loop moves on
to the next accept.  Returns the connections handled, the errors passed to
the callback, and the errors the loop writes to the log (connections are
opaque `Nat` identifiers).  The source's error branch contains no print or
logging statement — the only `eprintln!` in the module is the stale-endpoint
warning on the bind path, traced above as `warnStale` — so no branch here
appends to the log component. -/
def accept_loop (incoming : List (Except IOError Nat)) (hasCallback : Bool) :
    List Nat × List IOError × List IOError :=
  match incoming with
  | [] => ([], [], [])
  | .ok conn :: rest =>
    let r := accept_loop rest hasCallback
    (conn :: r.1, r.2.1, r.2.2)
  | .error e :: rest =>
    let r := accept_loop rest hasCallback
    (r.1, (if hasCallback then e :: r.2.1 else r.2.1), r.2.2)

/-- Embedding of the per-connection closure of `start_ipc_server`
(`src/lib.rs`): decode one request with `read_serde` and `unwrap` the result
(a failure panics the server thread, modelled as `none`); invoke the user
handler; when it returns a response, encode and write it with `write_serde`
and `unwrap` that too.  On a non-panicking run, returns the bytes written
back on the connection. -/
def ipc_server_on_connection {α β : Type} (de : List Nat → Option α)
    (ser : β → Option (List Nat)) (handler : α → Option β)
    (input : List Nat) (o : WriteOracle) : Option (List Nat) :=
  match read_serde de input with
  | .error _ => none
  | .ok (request, _) =>
    match handler request with
    | none => some []
    | some response =>
      match write_serde ser response o with
      | (.error _, _) => none
      | (.ok _, out) => some out

/-- Results of the external collaborators consulted by a client call: the
outcome of `LocalSocketStream::connect`, the outcomes of the stream writes,
and the bytes the peer makes available for reading on the connection. -/
structure ClientEnv where
  connectRes : Except IOError Unit
  writes : WriteOracle
  input : List Nat
  deriving Repr

/-- Embedding of `send_ipc_message` (`src/lib.rs`): connect (`?` wraps the
I/O failure as `ConnectError`), write the request frame with `write_serde`
(`?` wraps its failure as `WriteError`), and return `Ok` — nothing is ever
read from the connection. -/
def send_ipc_message {α : Type} (ser : α → Option (List Nat)) (request : α)
    (env : ClientEnv) : Except IpcClientError Unit :=
  match env.connectRes with
  | .error e => .error (.connectErr e)
  | .ok _ =>
    match (write_serde ser request env.writes).1 with
    | .error we => .error (.writeErr we)
    | .ok _ => .ok ()

/-- Embedding of `send_ipc_query` (`src/lib.rs`): connect (`ConnectError` on
failure), write the request frame (`WriteError` on failure), then read one
response frame from the same connection with `read_serde` (`ReadError` on
failure) and return the decoded response. -/
def send_ipc_query {α β : Type} (ser : α → Option (List Nat))
    (de : List Nat → Option β) (request : α) (env : ClientEnv) :
    Except IpcClientError β :=
  match env.connectRes with
  | .error e => .error (.connectErr e)
  | .ok _ =>
    match (write_serde ser request env.writes).1 with
    | .error we => .error (.writeErr we)
    | .ok _ =>
      match read_serde de env.input with
      | .error re => .error (.readErr re)
      | .ok (response, _) => .ok response

/-! Helper lemmas about the codec, shared by several claim theorems. -/

/-- A stream that ends before the 4-byte length field yields a read error. -/
theorem read_serde_short {α : Type} (de : List Nat → Option α)
    (stream : List Nat) (h : stream.length < 4) :
    ∃ e, read_serde de stream = .error (.readErr e) := by
  rcases stream with _ | ⟨a, _ | ⟨b, _ | ⟨c, _ | ⟨d, rest⟩⟩⟩⟩
  · exact ⟨⟨.otherKind, 0⟩, rfl⟩
  · exact ⟨⟨.otherKind, 0⟩, rfl⟩
  · exact ⟨⟨.otherKind, 0⟩, rfl⟩
  · exact ⟨⟨.otherKind, 0⟩, rfl⟩
  · simp at h
    omega

/-- Evaluation of `read_serde` on a stream with an intact length field. -/
theorem read_serde_cons {α : Type} (de : List Nat → Option α)
    (b0 b1 b2 b3 : Nat) (rest : List Nat) :
    read_serde de (b0 :: b1 :: b2 :: b3 :: rest) =
      (if readU32LE b0 b1 b2 b3 ≤ rest.length then
        match de (rest.take (readU32LE b0 b1 b2 b3)) with
        | some v => .ok (v, rest.drop (readU32LE b0 b1 b2 b3))
        | none => .error .deserializeErr
      else .error (.readErr ⟨.otherKind, 0⟩)) := rfl

/-- Evaluation of `write_serde` under successful stream writes. -/
theorem write_serde_ok {α : Type} (ser : α → Option (List Nat)) (v : α)
    (bytes : List Nat) (h : ser v = some bytes) :
    write_serde ser v okWrites =
      (.ok (), u32LE (bytes.length % 2 ^ 32) ++ bytes) := by
  unfold write_serde
  rw [h]
  rfl

/-- Length field at the head of a well-formed frame. -/
theorem frameLenField_frame (n : Nat) (bytes : List Nat) :
    frameLenField (u32LE n ++ bytes) = n % 2 ^ 32 := by
  show readU32LE (n % 256) (n / 256 % 256) (n / 65536 % 256)
      (n / 16777216 % 256) = n % 2 ^ 32
  exact readU32LE_u32LE n

/-! Claim C2. -/

/-- C2: `read_serde` reads a 4-byte little-endian length `n` and then exactly
`n` payload bytes before deserializing; a stream ending before the length
field or before `n` payload bytes yields `ReadError`; payload bytes the
decoder rejects yield `DeserializeError`; on success exactly `4 + n` bytes of
the stream are consumed. -/
theorem read_serde_frame_spec {α : Type} (de : List Nat → Option α)
    (stream : List Nat) :
    (stream.length < 4 → ∃ e, read_serde de stream = .error (.readErr e)) ∧
    (∀ b0 b1 b2 b3 rest, stream = b0 :: b1 :: b2 :: b3 :: rest →
      (rest.length < readU32LE b0 b1 b2 b3 →
        ∃ e, read_serde de stream = .error (.readErr e)) ∧
      (readU32LE b0 b1 b2 b3 ≤ rest.length →
        (de (rest.take (readU32LE b0 b1 b2 b3)) = none →
          read_serde de stream = .error .deserializeErr) ∧
        (∀ v, de (rest.take (readU32LE b0 b1 b2 b3)) = some v →
          read_serde de stream =
            .ok (v, stream.drop (4 + readU32LE b0 b1 b2 b3))))) := by
  constructor
  · exact read_serde_short de stream
  · rintro b0 b1 b2 b3 rest rfl
    rw [read_serde_cons]
    constructor
    · intro hlt
      rw [if_neg (by omega)]
      exact ⟨⟨.otherKind, 0⟩, rfl⟩
    · intro hle
      rw [if_pos hle]
      constructor
      · intro hnone
        rw [hnone]
      · intro v hsome
        rw [hsome]
        simp [Nat.add_comm 4 (readU32LE b0 b1 b2 b3)]

/-- Decoder used by the concrete C2 witness. -/
def c2De : List Nat → Option Nat := fun bs => if bs = [42] then some 7 else none

/-- Witness for C2 at concrete streams: a well-formed one-byte frame decodes
consuming the whole stream, a truncated payload yields a read error, and a
rejected payload yields a deserialize error. -/
theorem read_serde_frame_spec_witness :
    read_serde c2De [1, 0, 0, 0, 42] = .ok (7, []) ∧
    (∃ e, read_serde c2De [2, 0, 0, 0, 42] = .error (.readErr e)) ∧
    read_serde c2De [1, 0, 0, 0, 41] = .error .deserializeErr := by
  refine ⟨?_, ?_, ?_⟩
  · have h := (((read_serde_frame_spec c2De [1, 0, 0, 0, 42]).2
      1 0 0 0 [42] rfl).2 (by decide)).2 7 (by decide)
    exact h
  · exact ((read_serde_frame_spec c2De [2, 0, 0, 0, 42]).2
      2 0 0 0 [42] rfl).1 (by decide)
  · exact (((read_serde_frame_spec c2De [1, 0, 0, 0, 41]).2
      1 0 0 0 [41] rfl).2 (by decide)).1 (by decide)

/-! Claim C3 (corrected: the length field is the payload byte count reduced
modulo `2 ^ 32`, because the source writes `bytes.len() as u32`). -/

/-- Payload of `2 ^ 32` bytes, exhibiting the `as u32` truncation. -/
def bigBytes : List Nat := List.replicate (2 ^ 32) 1

/-- Encoder (one the engine could well implement, e.g. for a fixed-size byte
array) whose output for the single value is `2 ^ 32` bytes long. -/
def bigSer : Unit → Option (List Nat) := fun _ => some bigBytes

/-- Decoder forming an inverse pair with `bigSer`: accepts exactly the
`2 ^ 32`-byte strings. -/
def bigDe : List Nat → Option Unit :=
  fun bs => if bs.length = 2 ^ 32 then some () else none

theorem bigBytes_length : bigBytes.length = 2 ^ 32 := by
  unfold bigBytes
  exact List.length_replicate _ _

/-- Counterexample to C3 as stated: for an encoder producing `2 ^ 32` payload
bytes, `write_serde` writes a length field of value `0`, not the payload byte
count `2 ^ 32`, while still writing all `2 ^ 32` payload bytes after it. -/
theorem write_serde_lenfield_cex :
    bigSer () = some bigBytes ∧
    bigBytes.length = 2 ^ 32 ∧
    frameLenField (write_serde bigSer () okWrites).2 = 0 ∧
    (write_serde bigSer () okWrites).2.drop 4 = bigBytes ∧
    (0 : Nat) ≠ 2 ^ 32 := by
  have hw : write_serde bigSer () okWrites =
      (.ok (), u32LE (bigBytes.length % 2 ^ 32) ++ bigBytes) :=
    write_serde_ok bigSer () bigBytes rfl
  refine ⟨rfl, bigBytes_length, ?_, ?_, by norm_num⟩
  · rw [hw]
    show frameLenField (u32LE (bigBytes.length % 2 ^ 32) ++ bigBytes) = 0
    rw [frameLenField_frame, bigBytes_length, Nat.mod_mod_of_dvd _ dvd_rfl,
      Nat.mod_self]
  · rw [hw]
    show (u32LE (bigBytes.length % 2 ^ 32) ++ bigBytes).drop 4 = bigBytes
    rfl

/-- C3 (amended): when serialization succeeds and the stream writes succeed,
`write_serde` writes a 4-byte little-endian length field whose value is the
payload byte count reduced modulo `2 ^ 32` — hence equal to the count
whenever the count is below `2 ^ 32` — followed by all payload bytes in
full, and the field value never exceeds the payload bytes actually
written. -/
theorem write_serde_frame_spec {α : Type} (ser : α → Option (List Nat))
    (v : α) (bytes : List Nat) (h : ser v = some bytes) :
    (write_serde ser v okWrites).1 = .ok () ∧
    frameLenField (write_serde ser v okWrites).2 = bytes.length % 2 ^ 32 ∧
    frameLenField (write_serde ser v okWrites).2 ≤ bytes.length ∧
    (bytes.length < 2 ^ 32 →
      frameLenField (write_serde ser v okWrites).2 = bytes.length) ∧
    (write_serde ser v okWrites).2.take 4 = u32LE (bytes.length % 2 ^ 32) ∧
    (write_serde ser v okWrites).2.drop 4 = bytes := by
  rw [write_serde_ok ser v bytes h]
  have hfl : frameLenField (u32LE (bytes.length % 2 ^ 32) ++ bytes)
      = bytes.length % 2 ^ 32 := by
    rw [frameLenField_frame]
    exact Nat.mod_mod_of_dvd _ dvd_rfl
  refine ⟨rfl, hfl, ?_, ?_, rfl, rfl⟩
  · rw [hfl]
    exact Nat.mod_le _ _
  · intro hlt
    rw [hfl, Nat.mod_eq_of_lt hlt]

/-- Witness for the amended C3 at a concrete encoder and value. -/
theorem write_serde_frame_spec_witness :
    (write_serde (fun _ : Unit => some [9, 8]) () okWrites).1 = .ok () ∧
    frameLenField (write_serde (fun _ : Unit => some [9, 8]) () okWrites).2 = 2 ∧
    (write_serde (fun _ : Unit => some [9, 8]) () okWrites).2.drop 4 = [9, 8] := by
  have h := write_serde_frame_spec (fun _ : Unit => some [9, 8]) () [9, 8] rfl
  exact ⟨h.1, (h.2.2.2.1 (by norm_num)).trans rfl, h.2.2.2.2.2⟩

/-! Claim C1 (corrected: the round trip holds for values whose serialized
form is below `2 ^ 32` bytes; at `2 ^ 32` bytes and beyond, the `as u32`
length cast breaks it). -/

/-- Counterexample to C1 as stated: `bigSer`/`bigDe` form an inverse
encode/decode pair on the value `()` — the engine can serialize and
deserialize it — yet writing the value with `write_serde` and reading the
written stream back with `read_serde` yields a deserialize error instead of
the value, because the `2 ^ 32`-byte payload's length field is written as
`0`. -/
theorem framing_roundtrip_cex :
    bigSer () = some bigBytes ∧
    bigDe bigBytes = some () ∧
    read_serde bigDe (write_serde bigSer () okWrites).2 =
      .error .deserializeErr := by
  refine ⟨rfl, ?_, ?_⟩
  · show (if bigBytes.length = 2 ^ 32 then some () else none) = some ()
    rw [if_pos bigBytes_length]
  · rw [write_serde_ok bigSer () bigBytes rfl, bigBytes_length, Nat.mod_self]
    show read_serde bigDe (u32LE 0 ++ bigBytes) = .error .deserializeErr
    rw [show u32LE 0 ++ bigBytes = 0 :: 0 :: 0 :: 0 :: bigBytes from rfl,
      read_serde_cons,
      show readU32LE 0 0 0 0 = 0 from rfl,
      if_pos (Nat.zero_le _)]
    have hnone : bigDe (List.take 0 bigBytes) = none := by
      show (if (0 : Nat) = 2 ^ 32 then some () else none) = none
      rw [if_neg (by norm_num)]
    rw [hnone]

/-- C1 (amended): for every value `v` the encoding engine can serialize and
deserialize whose serialized form is shorter than `2 ^ 32` bytes, writing `v`
with `write_serde` and reading the written stream back with `read_serde` at
the same type returns `v`, consuming the whole frame. -/
theorem framing_roundtrip {α : Type} (ser : α → Option (List Nat))
    (de : List Nat → Option α) (v : α) (bytes : List Nat)
    (hser : ser v = some bytes) (hde : de bytes = some v)
    (hlen : bytes.length < 2 ^ 32) :
    read_serde de (write_serde ser v okWrites).2 = .ok (v, []) := by
  rw [write_serde_ok ser v bytes hser]
  show read_serde de (u32LE (bytes.length % 2 ^ 32) ++ bytes) = .ok (v, [])
  rw [Nat.mod_eq_of_lt hlen,
    show u32LE bytes.length ++ bytes =
      bytes.length % 256 :: bytes.length / 256 % 256 ::
      bytes.length / 65536 % 256 :: bytes.length / 16777216 % 256 ::
      bytes from rfl,
    read_serde_cons, readU32LE_u32LE, Nat.mod_eq_of_lt hlen,
    if_pos (Nat.le_refl _), List.take_length, hde, List.drop_length]

/-- Witness for the amended C1 at a concrete inverse encoder/decoder pair. -/
theorem framing_roundtrip_witness :
    read_serde (fun bs => if bs = [7] then some () else none)
      (write_serde (fun _ : Unit => some [7]) () okWrites).2 = .ok ((), []) :=
  framing_roundtrip (fun _ : Unit => some [7])
    (fun bs => if bs = [7] then some () else none) () [7]
    rfl (by decide) (by norm_num)

/-! Claim C10. -/

/-- C10: when serialization of the value fails, `write_serde` returns the
serialize error and zero bytes are written to the stream — not even the
length field — whatever the stream's write behavior would have been. -/
theorem write_serde_serialize_fail {α : Type} (ser : α → Option (List Nat))
    (v : α) (o : WriteOracle) (h : ser v = none) :
    write_serde ser v o = (.error .serializeErr, []) := by
  unfold write_serde
  rw [h]

/-- Witness for C10 at a concrete always-failing encoder. -/
theorem write_serde_serialize_fail_witness :
    write_serde (fun _ : Unit => (none : Option (List Nat))) () okWrites =
      (.error .serializeErr, []) :=
  write_serde_serialize_fail (fun _ : Unit => none) () okWrites rfl

/-! Claims C4 and C5: the stale-endpoint recovery of `start_ipc_listener`. -/

/-- C4: when the first bind fails with address-in-use and at most one
instance of the current executable is running, `start_ipc_listener` emits the
stale-endpoint warning, deletes the endpoint file at most once, and retries
the bind exactly once; a failed deletion yields `FileError` (with no retry),
and a failed retried bind yields `BindError`. -/
theorem stale_socket_recovery (env : ListenerEnv) (e : IOError)
    (h1 : env.bindRes1 = .error e) (hk : e.kind = ErrorKind.addrInUse)
    (hc : env.instanceCount ≤ 1) :
    ((start_ipc_listener env).2.count .removeEndpointFile ≤ 1 ∧
      (start_ipc_listener env).2.count .bindAttempt ≤ 2 ∧
      SysAction.warnStale ∈ (start_ipc_listener env).2) ∧
    (∀ fe, env.removeRes = .error fe →
      (start_ipc_listener env).1 = .error (.fileErr fe) ∧
      (start_ipc_listener env).2.count .bindAttempt = 1) ∧
    (env.removeRes = .ok () →
      (start_ipc_listener env).2.count .removeEndpointFile = 1 ∧
      (start_ipc_listener env).2.count .bindAttempt = 2 ∧
      (∀ e2, env.bindRes2 = .error e2 →
        (start_ipc_listener env).1 = .error (.bindErr e2))) := by
  obtain ⟨b1, ic, rr, b2, sp⟩ := env
  dsimp only at h1 hc
  subst h1
  unfold start_ipc_listener bind_listener
  dsimp only
  rw [if_pos hk, if_neg (by omega)]
  rcases rr with fe | u
  · dsimp only
    refine ⟨⟨by decide, by decide, by decide⟩, ?_, ?_⟩
    · intro fe' hfe
      cases hfe
      exact ⟨rfl, by decide⟩
    · intro hok
      simp at hok
  · rcases b2 with e2 | l
    · dsimp only
      refine ⟨⟨by decide, by decide, by decide⟩, ?_, ?_⟩
      · intro fe' hfe
        simp at hfe
      · intro _
        refine ⟨by decide, by decide, ?_⟩
        intro e2' he2
        cases he2
        rfl
    · rcases sp with se | hnd
      · dsimp only
        refine ⟨⟨by decide, by decide, by decide⟩, ?_, ?_⟩
        · intro fe' hfe
          simp at hfe
        · intro _
          refine ⟨by decide, by decide, ?_⟩
          intro e2' he2
          simp at he2
      · dsimp only
        refine ⟨⟨by decide, by decide, by decide⟩, ?_, ?_⟩
        · intro fe' hfe
          simp at hfe
        · intro _
          refine ⟨by decide, by decide, ?_⟩
          intro e2' he2
          simp at he2

/-- Witness for C4 at a concrete environment: first bind fails with
address-in-use, one instance running, deletion succeeds, retried bind
succeeds; the trace shows one warning, one deletion and two bind attempts. -/
theorem stale_socket_recovery_witness :
    ((start_ipc_listener
        ⟨.error ⟨.addrInUse, 0⟩, 1, .ok (), .ok 5, .ok 9⟩).2.count
      SysAction.removeEndpointFile ≤ 1) ∧
    ((start_ipc_listener
        ⟨.error ⟨.addrInUse, 0⟩, 1, .ok (), .ok 5, .ok 9⟩).2.count
      SysAction.bindAttempt = 2) := by
  have h := stale_socket_recovery
    ⟨.error ⟨.addrInUse, 0⟩, 1, .ok (), .ok 5, .ok 9⟩ ⟨.addrInUse, 0⟩
    rfl rfl (by norm_num)
  exact ⟨h.1.1, (h.2.2 rfl).2.1⟩

/-- C5: when the first bind fails with address-in-use and more than one
instance of the current executable is running, `start_ipc_listener` returns
`AlreadyInUseError`, deletes nothing, and does not retry the bind. -/
theorem sibling_protection (env : ListenerEnv) (e : IOError)
    (h1 : env.bindRes1 = .error e) (hk : e.kind = ErrorKind.addrInUse)
    (hc : 1 < env.instanceCount) :
    (start_ipc_listener env).1 = .error .alreadyInUseErr ∧
    (start_ipc_listener env).2.count .removeEndpointFile = 0 ∧
    (start_ipc_listener env).2.count .bindAttempt = 1 := by
  obtain ⟨b1, ic, rr, b2, sp⟩ := env
  dsimp only at h1 hc
  subst h1
  unfold start_ipc_listener bind_listener
  dsimp only
  rw [if_pos hk, if_pos hc]
  dsimp only
  exact ⟨rfl, by decide, by decide⟩

/-- Witness for C5 at a concrete environment with two running instances. -/
theorem sibling_protection_witness :
    (start_ipc_listener
        ⟨.error ⟨.addrInUse, 0⟩, 2, .ok (), .ok 5, .ok 9⟩).1 =
      .error .alreadyInUseErr ∧
    (start_ipc_listener
        ⟨.error ⟨.addrInUse, 0⟩, 2, .ok (), .ok 5, .ok 9⟩).2.count
      SysAction.removeEndpointFile = 0 := by
  have h := sibling_protection
    ⟨.error ⟨.addrInUse, 0⟩, 2, .ok (), .ok 5, .ok 9⟩ ⟨.addrInUse, 0⟩
    rfl rfl (by norm_num)
  exact ⟨h.1, h.2.1⟩

/-! Claim C6: the per-connection behavior of `start_ipc_server`. -/

/-- C6: for a connection whose stream decodes to a request, the server
wrapper decodes that one request, invokes the user handler on it, and writes
back exactly one encoded response frame when the handler returns a response,
and writes nothing at all when the handler returns none. -/
theorem server_one_request_one_response {α β : Type}
    (de : List Nat → Option α) (ser : β → Option (List Nat))
    (handler : α → Option β) (input : List Nat) (req : α) (rest : List Nat)
    (hreq : read_serde de input = .ok (req, rest)) :
    (handler req = none →
      ipc_server_on_connection de ser handler input okWrites = some []) ∧
    (∀ resp bytes, handler req = some resp → ser resp = some bytes →
      ipc_server_on_connection de ser handler input okWrites =
        some (u32LE (bytes.length % 2 ^ 32) ++ bytes)) := by
  unfold ipc_server_on_connection
  rw [hreq]
  dsimp only
  constructor
  · intro hn
    rw [hn]
  · intro resp bytes hr hs
    rw [hr]
    dsimp only
    rw [write_serde_ok ser resp bytes hs]

/-- Decoder used by the concrete C6 witness. -/
def c6De : List Nat → Option Nat := fun bs => if bs = [5] then some 5 else none

/-- Witness for C6 at a concrete request frame: the responding handler
produces exactly the one response frame, the silent handler produces no
bytes. -/
theorem server_one_request_one_response_witness :
    ipc_server_on_connection c6De (fun n : Nat => some [n])
      (fun n => if n = 5 then some (6 : Nat) else none)
      [1, 0, 0, 0, 5] okWrites = some [1, 0, 0, 0, 6] ∧
    ipc_server_on_connection c6De (fun n : Nat => some [n])
      (fun _ => (none : Option Nat))
      [1, 0, 0, 0, 5] okWrites = some [] := by
  constructor
  · have h := (server_one_request_one_response c6De (fun n : Nat => some [n])
      (fun n => if n = 5 then some (6 : Nat) else none)
      [1, 0, 0, 0, 5] 5 [] rfl).2 6 [6] (by decide) rfl
    exact h.trans rfl
  · exact (server_one_request_one_response c6De (fun n : Nat => some [n])
      (fun _ => (none : Option Nat))
      [1, 0, 0, 0, 5] 5 [] rfl).1 rfl

/-! Claim C7: `send_ipc_query`. -/

/-- C7: `send_ipc_query` connects, writes the request frame, then blocks
reading exactly one response frame on the same connection before returning
it; a connect failure yields `ConnectError`, a write failure `WriteError`, a
read failure `ReadError`; and when the peer closes the connection before a
full response frame — the response stream ends before the length field — the
call fails with `ReadError`. -/
theorem send_ipc_query_spec {α β : Type} (ser : α → Option (List Nat))
    (de : List Nat → Option β) (request : α) (env : ClientEnv) :
    (∀ e, env.connectRes = .error e →
      send_ipc_query ser de request env = .error (.connectErr e)) ∧
    (∀ we, env.connectRes = .ok () →
      (write_serde ser request env.writes).1 = .error we →
      send_ipc_query ser de request env = .error (.writeErr we)) ∧
    (∀ re, env.connectRes = .ok () →
      (write_serde ser request env.writes).1 = .ok () →
      read_serde de env.input = .error re →
      send_ipc_query ser de request env = .error (.readErr re)) ∧
    (∀ resp rest, env.connectRes = .ok () →
      (write_serde ser request env.writes).1 = .ok () →
      read_serde de env.input = .ok (resp, rest) →
      send_ipc_query ser de request env = .ok resp) ∧
    (env.connectRes = .ok () →
      (write_serde ser request env.writes).1 = .ok () →
      env.input.length < 4 →
      ∃ e, send_ipc_query ser de request env =
        .error (.readErr (.readErr e))) := by
  refine ⟨?_, ?_, ?_, ?_, ?_⟩
  · intro e he
    unfold send_ipc_query
    rw [he]
  · intro we hc hw
    unfold send_ipc_query
    rw [hc, hw]
  · intro re hc hw hr
    unfold send_ipc_query
    rw [hc, hw, hr]
  · intro resp rest hc hw hr
    unfold send_ipc_query
    rw [hc, hw, hr]
  · intro hc hw hlen
    obtain ⟨e, he⟩ := read_serde_short de env.input hlen
    refine ⟨e, ?_⟩
    unfold send_ipc_query
    rw [hc, hw, he]

/-- Witness for C7 at concrete environments: a successful exchange returns
the decoded response, and a peer that closes before sending any response
bytes produces a `ReadError`. -/
theorem send_ipc_query_spec_witness :
    send_ipc_query (fun _ : Unit => some [3]) c2De ()
      ⟨.ok (), okWrites, [1, 0, 0, 0, 42]⟩ = .ok 7 ∧
    (∃ e, send_ipc_query (fun _ : Unit => some [3]) c2De ()
      ⟨.ok (), okWrites, []⟩ = .error (.readErr (.readErr e))) := by
  constructor
  · exact (send_ipc_query_spec (fun _ : Unit => some [3]) c2De ()
      ⟨.ok (), okWrites, [1, 0, 0, 0, 42]⟩).2.2.2.1 7 [] rfl rfl rfl
  · exact (send_ipc_query_spec (fun _ : Unit => some [3]) c2De ()
      ⟨.ok (), okWrites, []⟩).2.2.2.2 rfl rfl (by decide)

/-! Claim C8 (corrected: accept-level errors without a callback are silently
discarded, not logged — the loop body contains no logging statement). -/

/-- Counterexample to C8 as stated: for a loop iteration whose accept fails
and whose caller supplied no error callback, the error reaches no callback
and nothing is written to the log either — the error is silently discarded,
not "otherwise only logged"; even with a callback present nothing is
logged. -/
theorem accept_error_not_logged_cex :
    (accept_loop [.error ⟨.otherKind, 7⟩] false).2.1 = [] ∧
    (accept_loop [.error ⟨.otherKind, 7⟩] false).2.2 = [] ∧
    (accept_loop [.error ⟨.otherKind, 7⟩] true).2.1 = [⟨.otherKind, 7⟩] ∧
    (accept_loop [.error ⟨.otherKind, 7⟩] true).2.2 = [] := by
  refine ⟨rfl, rfl, rfl, rfl⟩

/-- C8 (amended): every accept-level error in the running loop is passed to
the caller-supplied error callback when one was provided and is otherwise
silently discarded — the loop logs nothing in either case — and in both
cases the loop goes on to handle every subsequently accepted connection: an
accept error never terminates the loop, and the callback is invoked only
when present. -/
theorem accept_loop_spec (incoming : List (Except IOError Nat)) :
    (∀ hasCallback, (accept_loop incoming hasCallback).1 =
      incoming.filterMap (fun r => match r with
        | .ok conn => some conn
        | .error _ => none)) ∧
    ((accept_loop incoming true).2.1 =
      incoming.filterMap (fun r => match r with
        | .ok _ => none
        | .error e => some e)) ∧
    ((accept_loop incoming false).2.1 = []) ∧
    (∀ hasCallback, (accept_loop incoming hasCallback).2.2 = []) := by
  refine ⟨?_, ?_, ?_, ?_⟩
  · intro hasCallback
    induction incoming with
    | nil => rfl
    | cons hd tl ih =>
      cases hd with
      | ok c => simp [accept_loop, ih]
      | error e => simp [accept_loop, ih]
  · induction incoming with
    | nil => rfl
    | cons hd tl ih =>
      cases hd with
      | ok c => simp [accept_loop, ih]
      | error e => simp [accept_loop, ih]
  · induction incoming with
    | nil => rfl
    | cons hd tl ih =>
      cases hd with
      | ok c => simp [accept_loop, ih]
      | error e => simp [accept_loop, ih]
  · intro hasCallback
    induction incoming with
    | nil => rfl
    | cons hd tl ih =>
      cases hd with
      | ok c => simp [accept_loop, ih]
      | error e => simp [accept_loop, ih]

/-! Claim C9: `send_ipc_message`. -/

/-- C9: `send_ipc_message` connects, encodes and writes the request, and
returns without ever reading from the connection: its result is unchanged
under any change to the bytes the peer would send, its only failure outcomes
are `ConnectError` and `WriteError` (never `ReadError`), and it returns `Ok`
when connect and write succeed. -/
theorem send_ipc_message_spec {α : Type} (ser : α → Option (List Nat))
    (request : α) (env env2 : ClientEnv)
    (hcs : env2.connectRes = env.connectRes) (hws : env2.writes = env.writes) :
    send_ipc_message ser request env = send_ipc_message ser request env2 ∧
    (∀ e, env.connectRes = .error e →
      send_ipc_message ser request env = .error (.connectErr e)) ∧
    (∀ we, env.connectRes = .ok () →
      (write_serde ser request env.writes).1 = .error we →
      send_ipc_message ser request env = .error (.writeErr we)) ∧
    (env.connectRes = .ok () →
      (write_serde ser request env.writes).1 = .ok () →
      send_ipc_message ser request env = .ok ()) ∧
    (∀ re, send_ipc_message ser request env ≠ .error (.readErr re)) := by
  refine ⟨?_, ?_, ?_, ?_, ?_⟩
  · unfold send_ipc_message
    rw [hcs, hws]
  · intro e he
    unfold send_ipc_message
    rw [he]
  · intro we hc hw
    unfold send_ipc_message
    rw [hc, hw]
  · intro hc hw
    unfold send_ipc_message
    rw [hc, hw]
  · intro re
    unfold send_ipc_message
    rcases henv : env.connectRes with e | u
    · simp
    · rcases hwr : (write_serde ser request env.writes).1 with we | u2
      · simp
      · simp

/-- Witness for C9 at concrete environments differing only in the bytes the
peer would send: the same successful result, with no read performed. -/
theorem send_ipc_message_spec_witness :
    send_ipc_message (fun _ : Unit => some [3]) ()
        ⟨.ok (), okWrites, [9, 9, 9]⟩ =
      send_ipc_message (fun _ : Unit => some [3]) () ⟨.ok (), okWrites, []⟩ ∧
    send_ipc_message (fun _ : Unit => some [3]) ()
        ⟨.ok (), okWrites, [9, 9, 9]⟩ = .ok () := by
  have h := send_ipc_message_spec (fun _ : Unit => some [3]) ()
    ⟨.ok (), okWrites, [9, 9, 9]⟩ ⟨.ok (), okWrites, []⟩ rfl rfl
  exact ⟨h.1, h.2.2.2.1 rfl rfl⟩

end IpcUtil
